import Mathlib

/-!
# Verification of the scuttle-chat secure-transport stack

Shallow embedding of the box-stream codec (`src/box_stream.rs`), the
per-connection reader and writer loops (`src/peer_connection.rs`,
`src/peer_manager.rs`), the peer-address string codec and UDP discovery
pipeline (`src/discovery.rs`, `src/net.rs`, `src/event.rs`).

Bytes are modelled as `Nat` values (kept below 256 by the operations that
produce them), byte strings as `List Nat`, and the blocking byte transport as
an explicit list of the bytes available to the reader.  Fallible operations
return `Option` or `Except`; a Rust `panic!`/failed `assert!`/`unwrap()` is
modelled as a distinguished outcome of the function it aborts.

The `secretbox` primitive (an external library, used by the repository
through `seal_detached` / `open_detached`) is modelled as an idealised
encrypt-then-MAC scheme: a keyed byte-wise stream cipher (XOR with a key- and
nonce-derived keystream, hence an involution) together with a 16-byte keyed
MAC over the ciphertext.  `open_detached` succeeds exactly when the presented
tag equals the MAC of the ciphertext, which idealises unforgeability.  The
nonce generator (`ssb_crypto::NonceGen`, a 24-byte big-endian counter) is
modelled as a natural-number counter: `next` returns the current value and
increments.
-/

/-! ## Idealised secretbox model -/

/-- One keystream byte of the model stream cipher, derived from key, nonce and
position.  Always `< 256`. -/
def ksByte (key nonce i : Nat) : Nat :=
  (key + 131 * nonce + 197 * i + 73) % 256

/-- XOR a byte string with the keystream starting at position `i`. -/
def encFrom (key nonce i : Nat) : List Nat → List Nat
  | [] => []
  | b :: bs => (b ^^^ ksByte key nonce i) :: encFrom key nonce (i + 1) bs

/-- Model stream-cipher encryption (= decryption, since XOR is an
involution). -/
def enc (key nonce : Nat) (m : List Nat) : List Nat :=
  encFrom key nonce 0 m

/-- Accumulator of the model MAC: a keyed fold over the ciphertext, reduced
modulo `2 ^ 128`. -/
def macAcc (key nonce : Nat) (c : List Nat) : Nat :=
  c.foldl (fun acc b => (acc * 257 + b + 1) % 2 ^ 128)
    ((key * 131 + nonce * 193 + 7) % 2 ^ 128)

/-- The 16-byte tag of the model MAC (little-endian bytes of `macAcc`). -/
def macBytes (key nonce : Nat) (c : List Nat) : List Nat :=
  (List.range 16).map (fun i => macAcc key nonce c / 2 ^ (8 * i) % 256)

/-- Model of `secretbox::seal_detached`: encrypt in place, return the
ciphertext together with the detached tag computed over it. -/
def sealDetached (key nonce : Nat) (m : List Nat) : List Nat × List Nat :=
  let c := enc key nonce m
  (c, macBytes key nonce c)

/-- Model of `secretbox::open_detached`: verify the tag over the ciphertext
and, on success, return the decrypted bytes. -/
def openDetached (key nonce : Nat) (c tag : List Nat) : Option (List Nat) :=
  if tag = macBytes key nonce c then some (enc key nonce c) else none

theorem length_encFrom (key nonce i : Nat) (m : List Nat) :
    (encFrom key nonce i m).length = m.length := by
  induction m generalizing i with
  | nil => rfl
  | cons b bs ih => simp [encFrom, ih]

theorem length_enc (key nonce : Nat) (m : List Nat) :
    (enc key nonce m).length = m.length :=
  length_encFrom key nonce 0 m

theorem encFrom_encFrom (key nonce i : Nat) (m : List Nat) :
    encFrom key nonce i (encFrom key nonce i m) = m := by
  induction m generalizing i with
  | nil => rfl
  | cons b bs ih =>
      simp [encFrom, ih, Nat.xor_cancel_right]

theorem enc_enc (key nonce : Nat) (m : List Nat) :
    enc key nonce (enc key nonce m) = m :=
  encFrom_encFrom key nonce 0 m

theorem length_macBytes (key nonce : Nat) (c : List Nat) :
    (macBytes key nonce c).length = 16 := by
  simp [macBytes]

theorem openDetached_sealDetached (key nonce : Nat) (m : List Nat) :
    openDetached key nonce (sealDetached key nonce m).1
      (sealDetached key nonce m).2 = some m := by
  simp [openDetached, sealDetached, enc_enc]

/-! ## Box-stream codec (`src/box_stream.rs`) -/

/-- `BoxStreamError` (`box_stream.rs` lines 9-22): `Io` covers I/O failures of
the underlying transport (in this model: a short read), plus the two
decryption failures.  There is no oversized-frame variant in the source. -/
inductive BoxStreamError
  | Io
  | HeaderOpenFailed
  | BodyOpenFailed
deriving DecidableEq

/-- `BigEndian::write_u16`: the two big-endian bytes of `n` as a `u16`
(the Rust code casts `body.len() as u16`, i.e. reduces modulo `2 ^ 16`). -/
def u16be (n : Nat) : List Nat :=
  [n % 65536 / 256, n % 256]

/-- `BigEndian::read_u16` of two bytes. -/
def readU16be (b0 b1 : Nat) : Nat :=
  b0 * 256 + b1

/-- `seal_header` (`box_stream.rs` lines 100-107): seal the 18-byte header
payload, returning the 34-byte header box `tag(16) ++ ciphertext(18)`. -/
def sealHeader (key nonce : Nat) (payload : List Nat) : List Nat :=
  let sealed := sealDetached key nonce payload
  sealed.2 ++ sealed.1

/-- `seal` (`box_stream.rs` lines 110-127): draw the header nonce then the
body nonce from the generator, seal the body, build the header payload
`u16_be(len) ++ body_tag`, and seal the header.  Returns the 34-byte header
box, the body ciphertext, and the advanced nonce counter. -/
def sealFrame (key ng : Nat) (body : List Nat) : List Nat × List Nat × Nat :=
  let headNonce := ng
  let bodyNonce := ng + 1
  let sealedBody := sealDetached key bodyNonce body
  let headPayload := u16be sealedBody.1.length ++ sealedBody.2
  (sealHeader key headNonce headPayload, sealedBody.1, ng + 2)

/-- The wire bytes produced by one `seal` (Rust) call: header box then body
ciphertext. -/
def sealBytes (key ng : Nat) (body : List Nat) : List Nat :=
  (sealFrame key ng body).1 ++ (sealFrame key ng body).2.1

/-- `BoxWriter::send` (`box_stream.rs` lines 139-151).  The function first
runs `assert!(body.len() <= 4096)`; a failing assertion panics before
anything is sealed or written, which the model renders as `none`.  On
success (the transport model always accepts writes) the result is the wire
bytes written and the advanced nonce counter. -/
def send (key ng : Nat) (body : List Nat) : Option (List Nat × Nat) :=
  if body.length ≤ 4096 then some (sealBytes key ng body, ng + 2) else none

/-- `BoxWriter::send_goodbye` (`box_stream.rs` lines 153-158): seal an
all-zero 18-byte header payload with one nonce and write the 34-byte box. -/
def sendGoodbye (key ng : Nat) : List Nat × Nat :=
  (sealHeader key ng (List.replicate 18 0), ng + 1)

/-- `BoxReader::recv` (`box_stream.rs` lines 55-90) over an explicit byte
stream `s`: read the 16-byte header tag and the 18-byte header ciphertext
(short reads are `Io` errors), open the header (drawing one nonce), split it
into the big-endian length and the 16-byte body tag; an all-zero payload is
the goodbye sentinel (`Ok(None)`); otherwise read and open the body (drawing
a second nonce).  Returns the optional body, the unconsumed stream, and the
advanced nonce counter. -/
def recv (key ng : Nat) (s : List Nat) :
    Except BoxStreamError (Option (List Nat) × List Nat × Nat) :=
  if s.length < 16 then .error .Io else
  let headTag := s.take 16
  let s1 := s.drop 16
  if s1.length < 18 then .error .Io else
  let headCt := s1.take 18
  let s2 := s1.drop 18
  match openDetached key ng headCt headTag with
  | none => .error .HeaderOpenFailed
  | some hp =>
      let bodySize := readU16be (hp.getD 0 0) (hp.getD 1 0)
      let bodyTag := hp.drop 2
      if bodySize = 0 ∧ bodyTag = List.replicate 16 0 then
        .ok (none, s2, ng + 1)
      else
        if s2.length < bodySize then .error .Io else
        let bodyCt := s2.take bodySize
        let s3 := s2.drop bodySize
        match openDetached key (ng + 1) bodyCt bodyTag with
        | none => .error .BodyOpenFailed
        | some body => .ok (some body, s3, ng + 2)

example : (send 0 0 [7, 8]).isSome = true := by decide

deriving instance DecidableEq for Except

example :
    recv 0 0 (sealBytes 0 0 [7, 8]) = .ok (some [7, 8], [], 2) := by decide

example :
    recv 0 2 (sendGoodbye 0 2).1 = .ok (none, [], 3) := by decide

/-- Wire shape of one sealed frame: header tag, header ciphertext, body
ciphertext. -/
theorem sealBytes_eq (key ng : Nat) (body : List Nat) :
    sealBytes key ng body =
      macBytes key ng
          (enc key ng
            (u16be (enc key (ng + 1) body).length ++
              macBytes key (ng + 1) (enc key (ng + 1) body))) ++
        (enc key ng
          (u16be (enc key (ng + 1) body).length ++
            macBytes key (ng + 1) (enc key (ng + 1) body)) ++
          enc key (ng + 1) body) := by
  simp [sealBytes, sealFrame, sealHeader, sealDetached]

/-- Round-trip of the box-stream codec for any body of length `1..65535`:
`recv` on the bytes emitted by the Rust `seal` recovers the body, consumes
exactly the frame, and advances the nonce counter by two. -/
theorem recv_sealBytes (key ng : Nat) (body extra : List Nat)
    (h1 : 1 ≤ body.length) (h2 : body.length ≤ 65535) :
    recv key ng (sealBytes key ng body ++ extra) =
      .ok (some body, extra, ng + 2) := by
  have hcb : (enc key (ng + 1) body).length = body.length :=
    length_enc key (ng + 1) body
  set cb := enc key (ng + 1) body with hcbdef
  set bt := macBytes key (ng + 1) cb with hbtdef
  set hp : List Nat := u16be cb.length ++ bt with hhpdef
  set hct := enc key ng hp with hhctdef
  set ht := macBytes key ng hct with hhtdef
  have hhplen : hp.length = 18 := by
    simp [hhpdef, hbtdef, u16be, length_macBytes]
  have hhctlen : hct.length = 18 := by
    simp [hhctdef, length_enc, hhplen]
  have hhtlen : ht.length = 16 := by
    simp [hhtdef, length_macBytes]
  have hwire : sealBytes key ng body ++ extra = ht ++ (hct ++ (cb ++ extra)) := by
    rw [sealBytes_eq]
    simp [hhtdef, hhctdef, hhpdef, hbtdef, hcbdef]
  have hopen : openDetached key ng hct ht = some hp := by
    simp [openDetached, hhtdef, hhctdef, enc_enc]
  have hhp0 : hp.getD 0 0 = body.length % 65536 / 256 := by
    simp [hhpdef, u16be, hcb]
  have hhp1 : hp.getD 1 0 = body.length % 256 := by
    simp [hhpdef, u16be, hcb]
  have hsz : readU16be (hp.getD 0 0) (hp.getD 1 0) = body.length := by
    rw [hhp0, hhp1, readU16be]
    omega
  have hdrop2 : hp.drop 2 = bt := by
    simp [hhpdef, u16be]
  have hopenb : openDetached key (ng + 1) cb bt = some body := by
    simp [openDetached, hbtdef, hcbdef, enc_enc]
  rw [hwire]
  rw [recv]
  rw [if_neg (by simp [hhtlen])]
  rw [List.take_left' hhtlen, List.drop_left' hhtlen]
  rw [if_neg (by simp [hhctlen])]
  rw [List.take_left' hhctlen, List.drop_left' hhctlen]
  simp only [hopen]
  rw [hsz, hdrop2]
  rw [if_neg (by intro hcon; omega)]
  rw [if_neg (by simp only [List.length_append, hcb]; omega)]
  have hcbl : cb.length = body.length := hcb
  rw [List.take_left' hcbl, List.drop_left' hcbl]
  simp only [hopenb]

/-- `recv` on the bytes emitted by `send_goodbye` yields the goodbye sentinel
`Ok(None)`, consuming one nonce. -/
theorem recv_sendGoodbye (key ng : Nat) (extra : List Nat) :
    recv key ng ((sendGoodbye key ng).1 ++ extra) = .ok (none, extra, ng + 1) := by
  set hp : List Nat := List.replicate 18 0 with hhpdef
  set hct := enc key ng hp with hhctdef
  set ht := macBytes key ng hct with hhtdef
  have hhctlen : hct.length = 18 := by
    simp [hhctdef, length_enc, hhpdef]
  have hhtlen : ht.length = 16 := by
    simp [hhtdef, length_macBytes]
  have hwire : (sendGoodbye key ng).1 ++ extra = ht ++ (hct ++ extra) := by
    simp [sendGoodbye, sealHeader, sealDetached, hhtdef, hhctdef, hhpdef]
  have hopen : openDetached key ng hct ht = some hp := by
    simp [openDetached, hhtdef, hhctdef, enc_enc]
  have h0 : hp.getD 0 0 = 0 := by simp [hhpdef]
  have h1 : hp.getD 1 0 = 0 := by simp [hhpdef]
  have hdrop2 : hp.drop 2 = List.replicate 16 0 := by
    simp [hhpdef]
  rw [hwire]
  rw [recv]
  rw [if_neg (by simp [hhtlen])]
  rw [List.take_left' hhtlen, List.drop_left' hhtlen]
  rw [if_neg (by simp [hhctlen])]
  rw [List.take_left' hhctlen, List.drop_left' hhctlen]
  simp only [hopen]
  rw [h0, h1, hdrop2]
  simp [readU16be]

/-- `recv` on a well-formed frame whose header declares body length 0 with a
nonzero body tag `t`: the goodbye branch is not taken; the empty body opens
to `Some(vec![])` when `t` is its valid tag and fails with `BodyOpenFailed`
otherwise. -/
theorem recv_header_only (key ng : Nat) (t extra : List Nat)
    (hlen : t.length = 16) (hnz : t ≠ List.replicate 16 0) :
    recv key ng (sealHeader key ng (u16be 0 ++ t) ++ extra) =
      if t = macBytes key (ng + 1) [] then .ok (some [], extra, ng + 2)
      else .error .BodyOpenFailed := by
  set hp : List Nat := u16be 0 ++ t with hhpdef
  set hct := enc key ng hp with hhctdef
  set ht := macBytes key ng hct with hhtdef
  have hhplen : hp.length = 18 := by
    simp [hhpdef, u16be, hlen]
  have hhctlen : hct.length = 18 := by
    simp [hhctdef, length_enc, hhplen]
  have hhtlen : ht.length = 16 := by
    simp [hhtdef, length_macBytes]
  have hopen : openDetached key ng hct ht = some hp := by
    simp [openDetached, hhtdef, hhctdef, enc_enc]
  have h0 : hp.getD 0 0 = 0 := by simp [hhpdef, u16be]
  have h1 : hp.getD 1 0 = 0 := by simp [hhpdef, u16be]
  have hdrop2 : hp.drop 2 = t := by simp [hhpdef, u16be]
  have hwire : sealHeader key ng (u16be 0 ++ t) ++ extra = ht ++ (hct ++ extra) := by
    simp [sealHeader, sealDetached, hhtdef, hhctdef, hhpdef]
  rw [hwire]
  rw [recv]
  rw [if_neg (by simp [hhtlen])]
  rw [List.take_left' hhtlen, List.drop_left' hhtlen]
  rw [if_neg (by simp [hhctlen])]
  rw [List.take_left' hhctlen, List.drop_left' hhctlen]
  simp only [hopen]
  rw [h0, h1, hdrop2]
  rw [if_neg (by
    intro hcon
    exact hnz hcon.2)]
  rw [if_neg (by simp [readU16be])]
  simp only [readU16be]
  simp only [Nat.zero_mul, Nat.zero_add, List.take_zero, List.drop_zero]
  by_cases hmac : t = macBytes key (ng + 1) []
  · rw [if_pos hmac]
    simp [openDetached, hmac, enc, encFrom]
  · rw [if_neg hmac]
    simp [openDetached, hmac, enc, encFrom]

/-- Claim C1: box-stream round-trip.  For every body `b` with
`1 ≤ |b| ≤ 4096`, `BoxWriter::send` under `(key, ng)` succeeds, and
`BoxReader::recv` under the matching `(key, ng)` on the produced bytes
returns `Some(b)`; after `send_goodbye` (at the writer's advanced nonce
counter), `recv` on the produced bytes returns `None` (goodbye). -/
theorem C1_box_stream_roundtrip (key ng : Nat) (body : List Nat)
    (h1 : 1 ≤ body.length) (h2 : body.length ≤ 4096) :
    ∃ wire, send key ng body = some (wire, ng + 2) ∧
      recv key ng wire = .ok (some body, [], ng + 2) ∧
      recv key (ng + 2) (sendGoodbye key (ng + 2)).1 = .ok (none, [], ng + 3) := by
  refine ⟨sealBytes key ng body, ?_, ?_, ?_⟩
  · simp [send, h2]
  · simpa using recv_sealBytes key ng body [] h1 (by omega)
  · simpa using recv_sendGoodbye key (ng + 2) []

/-- Witness for C1 at `key = 0`, `ng = 0`, `body = [7]`. -/
theorem C1_box_stream_roundtrip_witness :
    1 ≤ ([7] : List Nat).length ∧ ([7] : List Nat).length ≤ 4096 ∧
      (∃ wire, send 0 0 [7] = some (wire, 0 + 2) ∧
        recv 0 0 wire = .ok (some [7], [], 0 + 2) ∧
        recv 0 (0 + 2) (sendGoodbye 0 (0 + 2)).1 = .ok (none, [], 0 + 3)) :=
  ⟨by decide, by decide, C1_box_stream_roundtrip 0 0 [7] (by decide) (by decide)⟩

/-- Counterexample to claim C2: a well-formed incoming frame whose decrypted
header carries body length 4097 (> 4096) is *not* rejected — `recv` returns
the 4097-byte body.  (`BoxStreamError` has no oversized-frame variant and
`recv` performs no length check.) -/
theorem C2_counterexample :
    recv 0 0 (sealBytes 0 0 (List.replicate 4097 0)) =
        .ok (some (List.replicate 4097 0), [], 2) ∧
      4096 < (List.replicate 4097 0).length := by
  constructor
  · have h := recv_sealBytes 0 0 (List.replicate 4097 0) []
      (by simp only [List.length_replicate]; omega)
      (by simp only [List.length_replicate]; omega)
    rw [List.append_nil] at h
    exact h
  · simp only [List.length_replicate]
    omega

/-- Claim C2 amended: `BoxReader::recv` performs no body-length check and
`BoxStreamError` has no `FrameTooLarge` variant; every well-formed incoming
frame whose decrypted header carries a length in `4097..65535` is accepted
and its body returned. -/
theorem C2_no_oversized_frame_rejection (key ng : Nat) (body : List Nat)
    (h1 : 4096 < body.length) (h2 : body.length ≤ 65535) :
    recv key ng (sealBytes key ng body) = .ok (some body, [], ng + 2) := by
  simpa using recv_sealBytes key ng body [] (by omega) h2

/-- Witness for the amended C2 at a 4097-byte body. -/
theorem C2_no_oversized_frame_rejection_witness :
    4096 < (List.replicate 4097 (3 : Nat)).length ∧
      (List.replicate 4097 (3 : Nat)).length ≤ 65535 ∧
      recv 0 0 (sealBytes 0 0 (List.replicate 4097 3)) =
        .ok (some (List.replicate 4097 3), [], 0 + 2) :=
  ⟨by simp only [List.length_replicate]; omega, by simp only [List.length_replicate]; omega,
    C2_no_oversized_frame_rejection 0 0 (List.replicate 4097 3)
      (by simp only [List.length_replicate]; omega)
      (by simp only [List.length_replicate]; omega)⟩

/-- Claim C9: `BoxWriter::send` succeeds for bodies of length 1, 2, 4095 and
4096 (the transport model always accepts writes), and rejects every body
longer than 4096 bytes by its `assert!(body.len() <= 4096)` length check
(modelled as `none`) before any bytes are sealed or written. -/
theorem C9_send_size_cap (key ng : Nat) (b1 b2 : List Nat)
    (h1 : b1.length = 1 ∨ b1.length = 2 ∨ b1.length = 4095 ∨ b1.length = 4096)
    (h2 : 4096 < b2.length) :
    (send key ng b1).isSome ∧ send key ng b2 = none := by
  constructor
  · rw [send, if_pos (by omega)]
    rfl
  · rw [send, if_neg (by omega)]

/-- Witness for C9 at bodies `[0]` (length 1) and 4097 zero bytes. -/
theorem C9_send_size_cap_witness :
    (([0] : List Nat).length = 1 ∨ ([0] : List Nat).length = 2 ∨
        ([0] : List Nat).length = 4095 ∨ ([0] : List Nat).length = 4096) ∧
      4096 < (List.replicate 4097 (0 : Nat)).length ∧
      ((send 0 0 [0]).isSome ∧ send 0 0 (List.replicate 4097 0) = none) :=
  ⟨by decide, by simp only [List.length_replicate]; omega,
    C9_send_size_cap 0 0 [0] (List.replicate 4097 0) (by decide)
      (by simp only [List.length_replicate]; omega)⟩

/-- Counterexample to claim C10's final clause: a frame whose decrypted
header has body length 0 and the nonzero tag `201 :: 0…0` — which is not the
valid tag of the empty body under `(key, nonce) = (0, 1)` — makes `recv`
fail with `BodyOpenFailed` rather than return `Some(empty)`. -/
theorem C10_counterexample :
    recv 0 0 (sealHeader 0 0 (u16be 0 ++ (201 :: List.replicate 15 0))) =
        .error .BodyOpenFailed ∧
      201 :: List.replicate 15 0 ≠ List.replicate 16 0 := by
  constructor
  · decide
  · decide

/-- Claim C10 amended: `BoxWriter::send` accepts a zero-length body (its
assertion admits 0); `BoxReader::recv` treats a decrypted header as goodbye
only when the length is 0 *and* the tag is all zeros; a frame whose header
has length 0 and a nonzero tag is never `None`: it is `Some(empty)` when the
tag authenticates the empty body, and `BodyOpenFailed` otherwise. -/
theorem C10_zero_length_edge (key ng : Nat) (t : List Nat)
    (hlen : t.length = 16) (hnz : t ≠ List.replicate 16 0) :
    (send key ng []).isSome ∧
      (t = macBytes key (ng + 1) [] →
        recv key ng (sealHeader key ng (u16be 0 ++ t)) = .ok (some [], [], ng + 2)) ∧
      (t ≠ macBytes key (ng + 1) [] →
        recv key ng (sealHeader key ng (u16be 0 ++ t)) = .error .BodyOpenFailed) := by
  refine ⟨by rw [send, if_pos (by simp)]; rfl, ?_, ?_⟩
  · intro hmac
    have := recv_header_only key ng t [] hlen hnz
    rw [if_pos hmac] at this
    simpa using this
  · intro hmac
    have := recv_header_only key ng t [] hlen hnz
    rw [if_neg hmac] at this
    simpa using this

/-- Witness for the amended C10 at `(key, ng) = (0, 0)` and the valid empty
tag, whose first byte is 200 (so it is nonzero). -/
theorem C10_zero_length_edge_witness :
    (macBytes 0 1 []).length = 16 ∧
      macBytes 0 1 [] ≠ List.replicate 16 0 ∧
      ((send 0 0 []).isSome ∧
        (macBytes 0 1 [] = macBytes 0 1 [] →
          recv 0 0 (sealHeader 0 0 (u16be 0 ++ macBytes 0 1 [])) =
            .ok (some [], [], 0 + 2)) ∧
        (macBytes 0 1 [] ≠ macBytes 0 1 [] →
          recv 0 0 (sealHeader 0 0 (u16be 0 ++ macBytes 0 1 [])) =
            .error .BodyOpenFailed)) :=
  ⟨by decide, by decide, C10_zero_length_edge 0 0 (macBytes 0 1 []) (by decide) (by decide)⟩

/-! ## Per-connection reader and writer loops
(`src/peer_connection.rs`, `src/peer_manager.rs`) -/

/-- The chat message derived from one `recv` result, as computed by
`spawn_reader_loop` (`peer_connection.rs` lines 37-41) and the identical
match in `init_chat_handle` (`peer_manager.rs` lines 180-184): a received
body is rendered as text (`String::from_utf8` when the bytes are valid
UTF-8, otherwise the `"Raw bytes: {:?}"` debug rendering — both injective
images of the body bytes, abstracted here as `fromBytes`); a goodbye
(`None`) is rendered as the literal `"Goodbye!"` string. -/
inductive PeerMsg
  | fromBytes (bytes : List Nat)
  | goodbyeMsg
deriving DecidableEq

/-- `PeerEvent` (`peer_manager.rs` lines 31-37).  `ConnectionClosed` carries
an `io::Result<()>`; box-stream errors convert into the `Err` case. -/
inductive PeerEvent
  | HandshakeSuccessful
  | ConnectionClosed (result : Except BoxStreamError Unit)
  | MessageReceived (msg : PeerMsg)
  | NewConnection
deriving DecidableEq

/-- The `match maybe_bytes` rendering step shared by both reader loops. -/
def renderMsg : Option (List Nat) → PeerMsg
  | some bytes => .fromBytes bytes
  | none => .goodbyeMsg

/-- The reader loop body of `spawn_reader_loop` (`peer_connection.rs` lines
33-48) and of `init_chat_handle` (`peer_manager.rs` lines 177-192), run over
a finite trace of `box_reader.recv()` results.  Every `Ok` result — goodbye
included — is forwarded as a `MessageReceived` event and the loop continues;
an `Err` makes the `?` operator exit the loop with that error (second
component `some e`).  A fully consumed trace leaves the loop still blocked
in `recv` (second component `none`): the loop has no other exit. -/
def readerLoop :
    List (Except BoxStreamError (Option (List Nat))) →
      List PeerEvent × Option BoxStreamError
  | [] => ([], none)
  | .error e :: _ => ([], some e)
  | .ok mb :: rest =>
      let r := readerLoop rest
      (.MessageReceived (renderMsg mb) :: r.1, r.2)

/-- The connection part of `init_chat_handle` (`peer_manager.rs` lines
142-202): emit `HandshakeSuccessful`, run the reader loop, and — only when
the loop exits with an error — emit `ConnectionClosed(Err(e))`
(`conn_result` can never be `Ok` because the loop has no non-error exit). -/
def chatHandle (trace : List (Except BoxStreamError (Option (List Nat)))) :
    List PeerEvent :=
  PeerEvent.HandshakeSuccessful :: (readerLoop trace).1 ++
    match (readerLoop trace).2 with
    | some e => [PeerEvent.ConnectionClosed (.error e)]
    | none => []

/-- Exit status of the writer thread of `spawn_writer_loop`
(`peer_connection.rs` lines 51-65) and of the writer thread in
`init_chat_handle` (`peer_manager.rs` lines 162-170). -/
inductive WriterExit
  | recvError   -- `rx.recv()` returned `Err(RecvError)`: queue closed; the
                -- thread exits with `Err(RecvError)`
  | panicked    -- `box_writer.send(...).unwrap()` panicked
deriving DecidableEq

/-- The writer loop run over the finite sequence of messages delivered by
the outbound queue before every sender handle is dropped: each message is
encoded with `BoxWriter::send` and written; when the queue is closed,
`rx.recv()` fails and the `?` operator exits the thread with
`Err(RecvError)`.  Returns the bytes written to the transport and the exit
status.  No goodbye is ever written: `send_goodbye` is not called. -/
def writerLoop (key ng : Nat) : List (List Nat) → List Nat × WriterExit
  | [] => ([], .recvError)
  | m :: rest =>
      match send key ng m with
      | none => ([], .panicked)
      | some (wire, ng') =>
          let r := writerLoop key ng' rest
          (wire ++ r.1, r.2)

/-- The concatenation of the frames of a message sequence, each sealed at
the successive nonce-counter positions (two nonces per frame). -/
def framesConcat (key ng : Nat) : List (List Nat) → List Nat
  | [] => []
  | m :: rest => sealBytes key ng m ++ framesConcat key (ng + 2) rest

/-- Every event the reader loop itself forwards is a `MessageReceived`; in
particular it never emits `ConnectionClosed(Ok)`. -/
theorem readerLoop_no_closed_ok
    (trace : List (Except BoxStreamError (Option (List Nat)))) :
    PeerEvent.ConnectionClosed (.ok ()) ∉ (readerLoop trace).1 := by
  induction trace with
  | nil => simp [readerLoop]
  | cons hd tl ih =>
      cases hd with
      | error e => simp [readerLoop]
      | ok mb =>
          rw [readerLoop]
          intro hmem
          rcases List.mem_cons.mp hmem with hc | hmem
          · exact PeerEvent.noConfusion hc
          · exact ih hmem

/-- Counterexample to claim C3: a reader whose `recv` returns `None`
(goodbye) emits `MessageReceived("Goodbye!")` — not `ConnectionClosed(Ok)` —
and does not exit: the loop keeps running. -/
theorem C3_counterexample :
    readerLoop [.ok none] = ([.MessageReceived .goodbyeMsg], none) ∧
      chatHandle [.ok none] =
        [.HandshakeSuccessful, .MessageReceived .goodbyeMsg] ∧
      PeerEvent.ConnectionClosed (.ok ()) ∉ chatHandle [.ok none] := by
  refine ⟨rfl, rfl, ?_⟩
  decide

/-- Claim C3 amended: when `recv` returns `None` (goodbye), the reader task
emits `MessageReceived("Goodbye!")` and keeps looping; it exits only when
`recv` returns an error `e`, emitting nothing for that result, and
`init_chat_handle` then emits `ConnectionClosed(Err(e))`; a
`ConnectionClosed(Ok)` event is never emitted. -/
theorem C3_reader_goodbye_handling
    (rest : List (Except BoxStreamError (Option (List Nat))))
    (e : BoxStreamError)
    (trace : List (Except BoxStreamError (Option (List Nat)))) :
    readerLoop (.ok none :: rest) =
        (.MessageReceived .goodbyeMsg :: (readerLoop rest).1,
          (readerLoop rest).2) ∧
      readerLoop (.error e :: rest) = ([], some e) ∧
      ((readerLoop trace).2 = some e →
        chatHandle trace =
          .HandshakeSuccessful :: (readerLoop trace).1 ++
            [.ConnectionClosed (.error e)]) ∧
      PeerEvent.ConnectionClosed (.ok ()) ∉ chatHandle trace := by
  refine ⟨rfl, rfl, ?_, ?_⟩
  · intro hexit
    rw [chatHandle, hexit]
  · rw [chatHandle]
    intro hmem
    rcases List.mem_cons.mp hmem with hc | hmem
    · exact PeerEvent.noConfusion hc
    rcases List.mem_append.mp hmem with hmem | hmem
    · exact readerLoop_no_closed_ok trace hmem
    · rcases hexit : (readerLoop trace).2 with _ | e'
      · rw [hexit] at hmem
        simp at hmem
      · rw [hexit] at hmem
        rcases List.mem_cons.mp hmem with hc | hmem
        · exact Except.noConfusion (PeerEvent.ConnectionClosed.inj hc)
        · simp at hmem

/-- Witness for the amended C3 on the trace `[Ok(None), Err(HeaderOpenFailed)]`:
the goodbye is forwarded as a message, the error exits the loop, and
`ConnectionClosed(Err)` — never `ConnectionClosed(Ok)` — is emitted. -/
theorem C3_reader_goodbye_handling_witness :
    (readerLoop [.ok none, .error .HeaderOpenFailed] =
        (.MessageReceived .goodbyeMsg ::
            (readerLoop [.error .HeaderOpenFailed]).1,
          (readerLoop [.error .HeaderOpenFailed]).2) ∧
      readerLoop [.error .HeaderOpenFailed, .error .HeaderOpenFailed] =
        ([], some .HeaderOpenFailed) ∧
      chatHandle [.ok none, .error .HeaderOpenFailed] =
        .HandshakeSuccessful ::
          (readerLoop [.ok none, .error .HeaderOpenFailed]).1 ++
            [.ConnectionClosed (.error .HeaderOpenFailed)] ∧
      PeerEvent.ConnectionClosed (.ok ()) ∉
        chatHandle [.ok none, .error .HeaderOpenFailed]) :=
  ⟨(C3_reader_goodbye_handling [.error .HeaderOpenFailed] .HeaderOpenFailed
      [.ok none, .error .HeaderOpenFailed]).1,
    (C3_reader_goodbye_handling [.error .HeaderOpenFailed] .HeaderOpenFailed
      [.ok none, .error .HeaderOpenFailed]).2.1,
    (C3_reader_goodbye_handling [.error .HeaderOpenFailed] .HeaderOpenFailed
      [.ok none, .error .HeaderOpenFailed]).2.2.1 (by decide),
    (C3_reader_goodbye_handling [.error .HeaderOpenFailed] .HeaderOpenFailed
      [.ok none, .error .HeaderOpenFailed]).2.2.2⟩

/-- Counterexample to claim C4: when the outbound queue is closed with no
message ever queued, the writer task writes nothing at all — in particular
no goodbye header — and exits with `Err(RecvError)`, not normally. -/
theorem C4_counterexample :
    writerLoop 0 0 [] = ([], .recvError) := by
  rfl

/-- Claim C4 amended: when the outbound queue is closed, the writer task
exits with `Err(RecvError)` without writing anything further; it never
sends a goodbye header (`send_goodbye` is dead code).  Over any queue
history of bodies within the size cap, the transport receives exactly the
sealed frames of the queued messages and nothing else. -/
theorem C4_writer_no_goodbye (key ng : Nat) (msgs : List (List Nat))
    (h : ∀ m ∈ msgs, m.length ≤ 4096) :
    writerLoop key ng msgs = (framesConcat key ng msgs, .recvError) := by
  induction msgs generalizing ng with
  | nil => rfl
  | cons m rest ih =>
      have hm : m.length ≤ 4096 := h m (List.mem_cons_self m rest)
      rw [writerLoop, send, if_pos hm]
      dsimp only
      rw [framesConcat, ih (ng + 2) (fun x hx => h x (List.mem_cons_of_mem m hx))]

/-- Witness for the amended C4 on a queue that delivers `[5]` and then
closes. -/
theorem C4_writer_no_goodbye_witness :
    (∀ m ∈ [[5]], List.length m ≤ 4096) ∧
      writerLoop 0 0 [[5]] = (framesConcat 0 0 [[5]], .recvError) :=
  ⟨by decide, C4_writer_no_goodbye 0 0 [[5]] (by decide)⟩

/-! ## Peer address strings (`src/discovery.rs`, `src/net.rs`)

`discovery.rs`'s `PeerAddr` and `net.rs`'s `SsbPeer` are textually identical
structures with textually identical `Display` and `FromStr` implementations
(only the type names differ); one Lean structure and one codec model both.
Strings are modelled as `List Char`.  The socket address is modelled as the
IPv4 case of `std::net::SocketAddr` (the only case this program ever
produces); its `Display` is dotted-decimal `a.b.c.d:port` and its `FromStr`
accepts exactly one `:`-separated host/port split with four `.`-separated
decimal octets below 256 and a decimal port below 65536. -/

/-- Transport tag (`discovery.rs` lines 38-42 / `net.rs` lines 31-35). -/
inductive Protocol
  | WebSocket
  | Net
deriving DecidableEq

/-- IPv4 socket address (model of `std::net::SocketAddr`, V4 case). -/
structure SockAddrV4 where
  o1 : Nat
  o2 : Nat
  o3 : Nat
  o4 : Nat
  port : Nat
deriving DecidableEq

/-- A discovered or connected peer (`discovery.rs` lines 19-24 `PeerAddr`,
`net.rs` lines 12-17 `SsbPeer`): transport tag, socket endpoint, and the
32-byte long-term public key (`ssb_crypto::PublicKey`, modelled as its byte
list). -/
structure PeerAddr where
  protocol : Protocol
  socket_addr : SockAddrV4
  public_key : List Nat
deriving DecidableEq

/-- Decimal printer for naturals, fuel-recursive so that it reduces in the
kernel: emit the low digit, recurse on `n / 10` while fuel lasts. -/
def natToCharsAux : Nat → Nat → List Char → List Char
  | 0, _, acc => acc
  | fuel + 1, n, acc =>
      if n < 10 then Nat.digitChar (n % 10) :: acc
      else natToCharsAux fuel (n / 10) (Nat.digitChar (n % 10) :: acc)

/-- Decimal printer for naturals (the `Display` of numbers inside
`SocketAddr`).  `n + 1` units of fuel always suffice. -/
def natToChars (n : Nat) : List Char :=
  natToCharsAux (n + 1) n []

/-- ASCII decimal digit test. -/
def isDigitChar (c : Char) : Bool :=
  48 ≤ c.toNat ∧ c.toNat ≤ 57

/-- Value of a digit string (most significant first). -/
def digitsVal (cs : List Char) : Nat :=
  cs.foldl (fun acc c => acc * 10 + (c.toNat - 48)) 0

/-- Parse a nonempty all-digit string as a natural number. -/
def parseDecimal (cs : List Char) : Option Nat :=
  if cs ≠ [] ∧ cs.all isDigitChar then some (digitsVal cs) else none

/-- Split a character list on a separator (model of `str::split`, which
always yields at least one — possibly empty — piece). -/
def splitOnChar (sep : Char) : List Char → List (List Char)
  | [] => [[]]
  | c :: rest =>
      let r := splitOnChar sep rest
      if c = sep then [] :: r
      else
        match r with
        | [] => [[c]]
        | g :: gs => (c :: g) :: gs

/-- Parse one IPv4 octet (`u8` component of `Ipv4Addr::from_str`). -/
def parseOctet (cs : List Char) : Option Nat :=
  (parseDecimal cs).bind fun n => if n < 256 then some n else none

/-- Parse a port (`u16` component of `SocketAddr::from_str`). -/
def parsePort (cs : List Char) : Option Nat :=
  (parseDecimal cs).bind fun n => if n < 65536 then some n else none

/-- Model of `SocketAddr::from_str`, IPv4 case: exactly one `:` split and
four `.`-separated octets. -/
def parseSocketAddr (cs : List Char) : Option SockAddrV4 :=
  match splitOnChar ':' cs with
  | [ip, port] =>
      match splitOnChar '.' ip with
      | [x1, x2, x3, x4] =>
          (parseOctet x1).bind fun a =>
          (parseOctet x2).bind fun b =>
          (parseOctet x3).bind fun c =>
          (parseOctet x4).bind fun d =>
          (parsePort port).map fun p => ⟨a, b, c, d, p⟩
      | _ => none
  | _ => none

/-- `Display` of the model socket address: dotted decimal and port. -/
def sockChars (s : SockAddrV4) : List Char :=
  natToChars s.o1 ++ '.' :: natToChars s.o2 ++ '.' :: natToChars s.o3 ++
    '.' :: natToChars s.o4 ++ ':' :: natToChars s.port

/-- The standard base64 alphabet (model of the `base64` crate's `STANDARD`
configuration used by `base64::encode` / `base64::decode`). -/
def b64Char (n : Nat) : Char :=
  if n < 26 then Char.ofNat (65 + n)
  else if n < 52 then Char.ofNat (97 + (n - 26))
  else if n < 62 then Char.ofNat (48 + (n - 52))
  else if n = 62 then '+'
  else '/'

/-- Inverse lookup in the standard base64 alphabet. -/
def b64Val (c : Char) : Option Nat :=
  if 65 ≤ c.toNat ∧ c.toNat ≤ 90 then some (c.toNat - 65)
  else if 97 ≤ c.toNat ∧ c.toNat ≤ 122 then some (c.toNat - 97 + 26)
  else if 48 ≤ c.toNat ∧ c.toNat ≤ 57 then some (c.toNat - 48 + 52)
  else if c = '+' then some 62
  else if c = '/' then some 63
  else none

/-- `base64::encode`: standard alphabet with `=` padding. -/
def base64encode : List Nat → List Char
  | [] => []
  | [b1] => [b64Char (b1 / 4), b64Char (b1 % 4 * 16), '=', '=']
  | [b1, b2] =>
      [b64Char (b1 / 4), b64Char (b1 % 4 * 16 + b2 / 16),
        b64Char (b2 % 16 * 4), '=']
  | b1 :: b2 :: b3 :: rest =>
      b64Char (b1 / 4) :: b64Char (b1 % 4 * 16 + b2 / 16) ::
        b64Char (b2 % 16 * 4 + b3 / 64) :: b64Char (b3 % 64) ::
          base64encode rest

/-- `base64::decode`: four-character groups over the standard alphabet,
with `=` padding allowed only to close the final group. -/
def base64decode : List Char → Option (List Nat)
  | [] => some []
  | c1 :: c2 :: c3 :: c4 :: rest =>
      (b64Val c1).bind fun v1 =>
      (b64Val c2).bind fun v2 =>
      if c3 = '=' then
        if c4 = '=' ∧ rest = [] then some [v1 * 4 + v2 / 16] else none
      else
        (b64Val c3).bind fun v3 =>
        if c4 = '=' then
          if rest = [] then some [v1 * 4 + v2 / 16, v2 % 16 * 16 + v3 / 4]
          else none
        else
          (b64Val c4).bind fun v4 =>
          (base64decode rest).map fun tl =>
            (v1 * 4 + v2 / 16) :: (v2 % 16 * 16 + v3 / 4) :: (v3 % 4 * 64 + v4) :: tl
  | _ => none

/-- The literal `~shs:` separator. -/
def shsChars : List Char := ['~', 's', 'h', 's', ':']

/-- The literal `ws://` protocol tag. -/
def wsChars : List Char := ['w', 's', ':', '/', '/']

/-- The literal `net:` protocol tag. -/
def netChars : List Char := ['n', 'e', 't', ':']

/-- Boolean prefix test. -/
def startsWith : List Char → List Char → Bool
  | [], _ => true
  | _ :: _, [] => false
  | p :: ps, c :: cs => p = c ∧ startsWith ps cs

/-- The lazy `(.*?)~shs:` part of the pattern
`(ws://|net:)(.*?)~shs:(.*)`: find the first occurrence of `~shs:`,
crossing no newline (regex `.` matches any character except `\n`), and
return the skipped span (capture group 2) together with the remainder. -/
def findShs : List Char → Option (List Char × List Char)
  | [] => none
  | c :: rest =>
      if startsWith shsChars (c :: rest) then some ([], (c :: rest).drop 5)
      else if c = '\n' then none
      else (findShs rest).map fun r => (c :: r.1, r.2)

/-- One attempt of the pattern at the current position: try `ws://`, then
`net:` (the regex alternation is leftmost-first), then the lazy span to
`~shs:`; capture group 3 is the greedy `(.*)`, i.e. the longest
newline-free remainder. -/
def matchAt (cs : List Char) : Option (Protocol × List Char × List Char) :=
  if startsWith wsChars cs then
    (findShs (cs.drop 5)).map fun r =>
      (Protocol.WebSocket, r.1, r.2.takeWhile (fun c => c ≠ '\n'))
  else if startsWith netChars cs then
    (findShs (cs.drop 4)).map fun r =>
      (Protocol.Net, r.1, r.2.takeWhile (fun c => c ≠ '\n'))
  else none

/-- `Regex::captures` of `(ws://|net:)(.*?)~shs:(.*)`: the leftmost
position admitting a match wins. -/
def findMatch : List Char → Option (Protocol × List Char × List Char)
  | [] => matchAt []
  | c :: rest =>
      match matchAt (c :: rest) with
      | some r => some r
      | none => findMatch rest

/-- `PublicKey::from_slice`: succeeds exactly on 32-byte input. -/
def pkFromSlice (l : List Nat) : Option (List Nat) :=
  if l.length = 32 then some l else none

/-- `FromStr` for `PeerAddr` (`discovery.rs` lines 68-93) and `SsbPeer`
(`net.rs` lines 61-86): run the regex, map capture group 1 to the protocol,
parse group 2 as a socket address, base64-decode group 3 and require a
32-byte public key. -/
def fromStr (cs : List Char) : Option PeerAddr :=
  (findMatch cs).bind fun r =>
  (parseSocketAddr r.2.1).bind fun sa =>
  (base64decode r.2.2).bind fun bytes =>
  (pkFromSlice bytes).map fun pk =>
  ⟨r.1, sa, pk⟩

/-- The protocol tag written by `Display` (`ws://` or `net:`). -/
def protChars : Protocol → List Char
  | Protocol.WebSocket => wsChars
  | Protocol.Net => netChars

/-- `Display` for `PeerAddr` / `SsbPeer` (`discovery.rs` lines 26-36,
`net.rs` lines 19-29): protocol tag, socket address, `~shs:`, base64 of the
public key. -/
def display (p : PeerAddr) : List Char :=
  protChars p.protocol ++ sockChars p.socket_addr ++ shsChars ++
    base64encode p.public_key

example : parseSocketAddr ("10.0.0.1:8008".data) = some ⟨10, 0, 0, 1, 8008⟩ := by
  decide

example : fromStr ("net:x~shs:AA==".data) = none := by decide

example :
    fromStr (display ⟨Protocol.Net, ⟨192, 168, 1, 5, 8008⟩, List.replicate 32 0⟩) =
      some ⟨Protocol.Net, ⟨192, 168, 1, 5, 8008⟩, List.replicate 32 0⟩ := by
  decide

/-! ### Correctness of the decimal printer against the decimal parser -/

theorem digitChar_toNat (m : Nat) (h : m < 10) :
    (Nat.digitChar m).toNat = 48 + m := by
  interval_cases m <;> decide

theorem isDigitChar_digitChar (m : Nat) (h : m < 10) :
    isDigitChar (Nat.digitChar m) = true := by
  interval_cases m <;> decide

theorem natToCharsAux_zero (n : Nat) (acc : List Char) :
    natToCharsAux 0 n acc = acc := rfl

theorem natToCharsAux_succ (fuel n : Nat) (acc : List Char) :
    natToCharsAux (fuel + 1) n acc =
      if n < 10 then Nat.digitChar (n % 10) :: acc
      else natToCharsAux fuel (n / 10) (Nat.digitChar (n % 10) :: acc) := rfl

theorem natToCharsAux_acc (fuel : Nat) :
    ∀ n acc, natToCharsAux (fuel + 1) n acc = natToCharsAux (fuel + 1) n [] ++ acc := by
  induction fuel with
  | zero =>
      intro n acc
      rw [natToCharsAux_succ 0 n acc, natToCharsAux_succ 0 n []]
      by_cases h : n < 10
      · rw [if_pos h, if_pos h]
        rfl
      · rw [if_neg h, if_neg h]
        rfl
  | succ f ih =>
      intro n acc
      rw [natToCharsAux_succ (f + 1) n acc, natToCharsAux_succ (f + 1) n []]
      by_cases h : n < 10
      · rw [if_pos h, if_pos h]
        rfl
      · rw [if_neg h, if_neg h]
        rw [ih (n / 10) (Nat.digitChar (n % 10) :: acc),
          ih (n / 10) [Nat.digitChar (n % 10)], List.append_assoc]
        rfl

theorem natToCharsAux_spec (n : Nat) :
    ∀ fuel, n < fuel →
      natToCharsAux fuel n [] ≠ [] ∧
      (∀ c ∈ natToCharsAux fuel n [], isDigitChar c = true) ∧
      digitsVal (natToCharsAux fuel n []) = n := by
  induction n using Nat.strong_induction_on with
  | _ n ih =>
      intro fuel hfuel
      match fuel, hfuel with
      | f + 1, hfuel =>
          rw [natToCharsAux_succ f n []]
          by_cases h : n < 10
          · rw [if_pos h]
            refine ⟨by simp, ?_, ?_⟩
            · intro c hc
              rw [List.mem_singleton] at hc
              subst hc
              exact isDigitChar_digitChar (n % 10) (Nat.mod_lt n (by omega))
            · have h10 : n % 10 = n := Nat.mod_eq_of_lt h
              rw [h10, digitsVal]
              simp only [List.foldl_cons, List.foldl_nil]
              rw [digitChar_toNat n h]
              omega
          · rw [if_neg h]
            have hd : n / 10 < n := Nat.div_lt_self (by omega) (by omega)
            have hdf : n / 10 < f := by omega
            obtain ⟨hne, hdig, hval⟩ := ih (n / 10) hd f hdf
            match hf : f, hdf with
            | f' + 1, hdf =>
                rw [natToCharsAux_acc f' (n / 10) [Nat.digitChar (n % 10)]]
                refine ⟨by simp, ?_, ?_⟩
                · intro c hc
                  rcases List.mem_append.mp hc with hc | hc
                  · exact hdig c hc
                  · rw [List.mem_singleton] at hc
                    subst hc
                    exact isDigitChar_digitChar (n % 10) (Nat.mod_lt n (by omega))
                · rw [digitsVal, List.foldl_append]
                  have hfold : List.foldl (fun acc c => acc * 10 + (c.toNat - 48)) 0
                      (natToCharsAux (f' + 1) (n / 10) []) = n / 10 := hval
                  rw [hfold]
                  simp only [List.foldl_cons, List.foldl_nil]
                  rw [digitChar_toNat (n % 10) (Nat.mod_lt n (by omega))]
                  omega

theorem natToChars_ne_nil (n : Nat) : natToChars n ≠ [] :=
  (natToCharsAux_spec n (n + 1) (by omega)).1

theorem natToChars_digits (n : Nat) :
    ∀ c ∈ natToChars n, isDigitChar c = true :=
  (natToCharsAux_spec n (n + 1) (by omega)).2.1

theorem digitsVal_natToChars (n : Nat) : digitsVal (natToChars n) = n :=
  (natToCharsAux_spec n (n + 1) (by omega)).2.2

theorem parseDecimal_natToChars (n : Nat) : parseDecimal (natToChars n) = some n := by
  have hall : (natToChars n).all isDigitChar = true := by
    rw [List.all_eq_true]
    exact natToChars_digits n
  rw [parseDecimal, if_pos ⟨natToChars_ne_nil n, hall⟩, digitsVal_natToChars]

theorem parseOctet_natToChars (n : Nat) (h : n < 256) :
    parseOctet (natToChars n) = some n := by
  rw [parseOctet, parseDecimal_natToChars]
  simp [h]

theorem parsePort_natToChars (n : Nat) (h : n < 65536) :
    parsePort (natToChars n) = some n := by
  rw [parsePort, parseDecimal_natToChars]
  simp [h]

/-- A decimal digit is none of the delimiter characters used by the
peer-address grammar (everything outside ASCII 48-57). -/
theorem isDigitChar_ne (c : Char) (h : isDigitChar c = true) (d : Char)
    (hd : 58 ≤ d.toNat ∨ d.toNat ≤ 47) : c ≠ d := by
  intro hc
  subst hc
  rw [isDigitChar] at h
  simp at h
  omega

/-! ### Splitting and socket-address round-trip -/

theorem splitOnChar_no_sep (sep : Char) (xs : List Char)
    (h : ∀ c ∈ xs, c ≠ sep) : splitOnChar sep xs = [xs] := by
  induction xs with
  | nil => rfl
  | cons c rest ih =>
      rw [splitOnChar]
      have hr : splitOnChar sep rest = [rest] :=
        ih (fun x hx => h x (List.mem_cons_of_mem c hx))
      rw [if_neg (h c (List.mem_cons_self c rest))]
      rw [hr]

theorem splitOnChar_sep (sep : Char) (xs ys : List Char)
    (h : ∀ c ∈ xs, c ≠ sep) :
    splitOnChar sep (xs ++ sep :: ys) = xs :: splitOnChar sep ys := by
  induction xs with
  | nil =>
      rw [List.nil_append]
      simp [splitOnChar]
  | cons c rest ih =>
      rw [List.cons_append, splitOnChar]
      rw [if_neg (h c (List.mem_cons_self c rest))]
      rw [ih (fun x hx => h x (List.mem_cons_of_mem c hx))]

/-- No digit equals any delimiter character (ASCII outside 48-57). -/
theorem natToChars_ne_char (n : Nat) (d : Char)
    (hd : 58 ≤ d.toNat ∨ d.toNat ≤ 47) : ∀ c ∈ natToChars n, c ≠ d :=
  fun c hc => isDigitChar_ne c (natToChars_digits n c hc) d hd

/-- The dotted-decimal host part of `sockChars`, written right-associated
for the parsing lemmas. -/
def ipChars (s : SockAddrV4) : List Char :=
  natToChars s.o1 ++
    ('.' :: (natToChars s.o2 ++ ('.' :: (natToChars s.o3 ++ ('.' :: natToChars s.o4)))))

theorem sockChars_eq (s : SockAddrV4) :
    sockChars s = ipChars s ++ ':' :: natToChars s.port := by
  rw [sockChars, ipChars]
  simp

/-- Character classes of the printed socket address: digits, dots and one
colon. -/
theorem sockChars_classes (s : SockAddrV4) :
    ∀ c ∈ sockChars s, isDigitChar c = true ∨ c = '.' ∨ c = ':' := by
  intro c hc
  rw [sockChars_eq, ipChars] at hc
  simp only [List.mem_append, List.mem_cons] at hc
  rcases hc with (hc | hc | hc | hc | hc | hc | hc) | hc | hc
  · exact Or.inl (natToChars_digits s.o1 c hc)
  · exact Or.inr (Or.inl hc)
  · exact Or.inl (natToChars_digits s.o2 c hc)
  · exact Or.inr (Or.inl hc)
  · exact Or.inl (natToChars_digits s.o3 c hc)
  · exact Or.inr (Or.inl hc)
  · exact Or.inl (natToChars_digits s.o4 c hc)
  · exact Or.inr (Or.inr hc)
  · exact Or.inl (natToChars_digits s.port c hc)

theorem ipChars_no_colon (s : SockAddrV4) : ∀ c ∈ ipChars s, c ≠ ':' := by
  intro c hc
  rw [ipChars] at hc
  simp only [List.mem_append, List.mem_cons] at hc
  rcases hc with hc | hc | hc | hc | hc | hc | hc
  · exact natToChars_ne_char s.o1 ':' (by decide) c hc
  · exact fun hcon => by rw [hc] at hcon; exact absurd hcon (by decide)
  · exact natToChars_ne_char s.o2 ':' (by decide) c hc
  · exact fun hcon => by rw [hc] at hcon; exact absurd hcon (by decide)
  · exact natToChars_ne_char s.o3 ':' (by decide) c hc
  · exact fun hcon => by rw [hc] at hcon; exact absurd hcon (by decide)
  · exact natToChars_ne_char s.o4 ':' (by decide) c hc

theorem splitIp (s : SockAddrV4) :
    splitOnChar '.' (ipChars s) =
      [natToChars s.o1, natToChars s.o2, natToChars s.o3, natToChars s.o4] := by
  rw [ipChars]
  rw [splitOnChar_sep '.' (natToChars s.o1) _ (natToChars_ne_char s.o1 '.' (by decide))]
  rw [splitOnChar_sep '.' (natToChars s.o2) _ (natToChars_ne_char s.o2 '.' (by decide))]
  rw [splitOnChar_sep '.' (natToChars s.o3) _ (natToChars_ne_char s.o3 '.' (by decide))]
  rw [splitOnChar_no_sep '.' (natToChars s.o4) (natToChars_ne_char s.o4 '.' (by decide))]

/-- Parsing the canonical form of an IPv4 socket address returns it. -/
theorem parseSocketAddr_sockChars (s : SockAddrV4)
    (h1 : s.o1 < 256) (h2 : s.o2 < 256) (h3 : s.o3 < 256) (h4 : s.o4 < 256)
    (hp : s.port < 65536) :
    parseSocketAddr (sockChars s) = some s := by
  rw [sockChars_eq, parseSocketAddr]
  rw [splitOnChar_sep ':' (ipChars s) _ (ipChars_no_colon s)]
  rw [splitOnChar_no_sep ':' (natToChars s.port)
    (natToChars_ne_char s.port ':' (by decide))]
  dsimp only
  rw [splitIp s]
  dsimp only
  rw [parseOctet_natToChars s.o1 h1]
  rw [Option.some_bind]
  rw [parseOctet_natToChars s.o2 h2]
  rw [Option.some_bind]
  rw [parseOctet_natToChars s.o3 h3]
  rw [Option.some_bind]
  rw [parseOctet_natToChars s.o4 h4]
  rw [Option.some_bind]
  rw [parsePort_natToChars s.port hp]
  rfl

/-! ### Base64 round-trip -/

theorem b64Val_b64Char : ∀ n, n < 64 → b64Val (b64Char n) = some n := by
  decide

theorem b64Char_ne_pad : ∀ n, n < 64 → b64Char n ≠ '=' := by
  decide

theorem b64Char_ne_nl : ∀ n, n < 64 → b64Char n ≠ '\n' := by
  decide

theorem base64decode_base64encode :
    ∀ bs : List Nat, (∀ b ∈ bs, b < 256) →
      base64decode (base64encode bs) = some bs := by
  intro bs
  induction bs using base64encode.induct with
  | case1 =>
      intro _
      rfl
  | case2 b1 =>
      intro h
      have hb1 : b1 < 256 := h b1 (by simp)
      rw [base64encode, base64decode]
      rw [b64Val_b64Char (b1 / 4) (by omega), Option.some_bind]
      rw [b64Val_b64Char (b1 % 4 * 16) (by omega), Option.some_bind]
      rw [if_pos rfl, if_pos ⟨rfl, rfl⟩]
      congr 1
      congr 1
      omega
  | case3 b1 b2 =>
      intro h
      have hb1 : b1 < 256 := h b1 (by simp)
      have hb2 : b2 < 256 := h b2 (by simp)
      rw [base64encode, base64decode]
      rw [b64Val_b64Char (b1 / 4) (by omega), Option.some_bind]
      rw [b64Val_b64Char (b1 % 4 * 16 + b2 / 16) (by omega), Option.some_bind]
      rw [if_neg (b64Char_ne_pad (b2 % 16 * 4) (by omega))]
      rw [b64Val_b64Char (b2 % 16 * 4) (by omega), Option.some_bind]
      rw [if_pos rfl, if_pos rfl]
      congr 1
      congr 1
      · omega
      congr 1
      omega
  | case4 b1 b2 b3 rest ih =>
      intro h
      have hb1 : b1 < 256 := h b1 (by simp)
      have hb2 : b2 < 256 := h b2 (by simp)
      have hb3 : b3 < 256 := h b3 (by simp)
      have hrest : ∀ b ∈ rest, b < 256 := fun b hb => h b (by simp [hb])
      rw [base64encode, base64decode]
      rw [b64Val_b64Char (b1 / 4) (by omega), Option.some_bind]
      rw [b64Val_b64Char (b1 % 4 * 16 + b2 / 16) (by omega), Option.some_bind]
      rw [if_neg (b64Char_ne_pad (b2 % 16 * 4 + b3 / 64) (by omega))]
      rw [b64Val_b64Char (b2 % 16 * 4 + b3 / 64) (by omega), Option.some_bind]
      rw [if_neg (b64Char_ne_pad (b3 % 64) (by omega))]
      rw [b64Val_b64Char (b3 % 64) (by omega), Option.some_bind]
      rw [ih hrest]
      simp only [Option.map_some']
      congr 1
      congr 1
      · omega
      congr 1
      · omega
      congr 1
      omega

theorem base64encode_no_nl :
    ∀ bs : List Nat, (∀ b ∈ bs, b < 256) →
      ∀ c ∈ base64encode bs, c ≠ '\n' := by
  intro bs
  induction bs using base64encode.induct with
  | case1 =>
      intro _ c hc
      simp [base64encode] at hc
  | case2 b1 =>
      intro h c hc
      have hb1 : b1 < 256 := h b1 (by simp)
      rw [base64encode] at hc
      simp only [List.mem_cons, List.not_mem_nil, or_false] at hc
      rcases hc with hc | hc | hc | hc <;> subst hc
      · exact b64Char_ne_nl (b1 / 4) (by omega)
      · exact b64Char_ne_nl (b1 % 4 * 16) (by omega)
      · decide
      · decide
  | case3 b1 b2 =>
      intro h c hc
      have hb1 : b1 < 256 := h b1 (by simp)
      have hb2 : b2 < 256 := h b2 (by simp)
      rw [base64encode] at hc
      simp only [List.mem_cons, List.not_mem_nil, or_false] at hc
      rcases hc with hc | hc | hc | hc <;> subst hc
      · exact b64Char_ne_nl (b1 / 4) (by omega)
      · exact b64Char_ne_nl (b1 % 4 * 16 + b2 / 16) (by omega)
      · exact b64Char_ne_nl (b2 % 16 * 4) (by omega)
      · decide
  | case4 b1 b2 b3 rest ih =>
      intro h c hc
      have hb1 : b1 < 256 := h b1 (by simp)
      have hb2 : b2 < 256 := h b2 (by simp)
      have hb3 : b3 < 256 := h b3 (by simp)
      have hrest : ∀ b ∈ rest, b < 256 := fun b hb => h b (by simp [hb])
      rw [base64encode] at hc
      simp only [List.mem_cons] at hc
      rcases hc with hc | hc | hc | hc | hc
      · subst hc
        exact b64Char_ne_nl (b1 / 4) (by omega)
      · subst hc
        exact b64Char_ne_nl (b1 % 4 * 16 + b2 / 16) (by omega)
      · subst hc
        exact b64Char_ne_nl (b2 % 16 * 4 + b3 / 64) (by omega)
      · subst hc
        exact b64Char_ne_nl (b3 % 64) (by omega)
      · exact ih hrest c hc

/-! ### Regex-model lemmas and the peer-address round-trip -/

theorem startsWith_append_self : ∀ p rest : List Char, startsWith p (p ++ rest) = true := by
  intro p
  induction p with
  | nil => intro rest; rfl
  | cons c cs ih =>
      intro rest
      rw [List.cons_append, startsWith]
      simp [ih rest]

theorem findShs_shs (ys : List Char) : findShs (shsChars ++ ys) = some ([], ys) := by
  have h : startsWith shsChars (shsChars ++ ys) = true := startsWith_append_self shsChars ys
  rw [shsChars] at h ⊢
  rw [List.cons_append, findShs]
  rw [if_pos (by rw [← List.cons_append]; exact h)]
  simp

theorem startsWith_cons_iff (p c : Char) (ps cs : List Char) :
    startsWith (p :: ps) (c :: cs) = true ↔ p = c ∧ startsWith ps cs = true := by
  simp [startsWith]

theorem findShs_cons (c : Char) (cs : List Char)
    (hc1 : c ≠ '~') (hc2 : c ≠ '\n') :
    findShs (c :: cs) = (findShs cs).map fun r => (c :: r.1, r.2) := by
  rw [findShs]
  rw [if_neg (by
    rw [shsChars]
    intro hcon
    rw [startsWith_cons_iff] at hcon
    exact hc1 hcon.1.symm)]
  rw [if_neg hc2]

theorem findShs_append (xs ys : List Char)
    (h : ∀ c ∈ xs, c ≠ '~' ∧ c ≠ '\n') :
    findShs (xs ++ (shsChars ++ ys)) = some (xs, ys) := by
  induction xs with
  | nil =>
      rw [List.nil_append]
      exact findShs_shs ys
  | cons c rest ih =>
      have hc := h c (List.mem_cons_self c rest)
      rw [List.cons_append]
      rw [findShs_cons c _ hc.1 hc.2]
      rw [ih (fun x hx => h x (List.mem_cons_of_mem c hx))]
      rfl

theorem matchAt_ws (rest : List Char) :
    matchAt (wsChars ++ rest) =
      (findShs rest).map fun r =>
        (Protocol.WebSocket, r.1, r.2.takeWhile (fun c => c ≠ '\n')) := by
  rw [matchAt]
  rw [if_pos (startsWith_append_self wsChars rest)]
  have hdrop : (wsChars ++ rest).drop 5 = rest := List.drop_left' (by rfl)
  rw [hdrop]

theorem matchAt_net (rest : List Char) :
    matchAt (netChars ++ rest) =
      (findShs rest).map fun r =>
        (Protocol.Net, r.1, r.2.takeWhile (fun c => c ≠ '\n')) := by
  rw [matchAt]
  rw [if_neg (by
    rw [wsChars, netChars, List.cons_append]
    intro hcon
    rw [startsWith_cons_iff] at hcon
    exact absurd hcon.1 (by decide))]
  rw [if_pos (startsWith_append_self netChars rest)]
  have hdrop : (netChars ++ rest).drop 4 = rest := List.drop_left' (by rfl)
  rw [hdrop]

theorem findMatch_cons (c : Char) (rest : List Char)
    (r : Protocol × List Char × List Char)
    (h : matchAt (c :: rest) = some r) : findMatch (c :: rest) = some r := by
  rw [findMatch, h]

theorem display_eq (p : PeerAddr) :
    display p =
      protChars p.protocol ++
        (sockChars p.socket_addr ++ (shsChars ++ base64encode p.public_key)) := by
  rw [display]
  simp [List.append_assoc]

/-- `matchAt` at position 0 of a displayed peer address captures the socket
address text and the base64 text. -/
theorem matchAt_display (p : PeerAddr) (hpk : ∀ b ∈ p.public_key, b < 256) :
    matchAt (display p) =
      some (p.protocol, sockChars p.socket_addr, base64encode p.public_key) := by
  have hsock : ∀ c ∈ sockChars p.socket_addr, c ≠ '~' ∧ c ≠ '\n' := by
    intro c hc
    rcases sockChars_classes p.socket_addr c hc with hd | hd | hd
    · exact ⟨isDigitChar_ne c hd '~' (by decide), isDigitChar_ne c hd '\n' (by decide)⟩
    · subst hd
      exact ⟨by decide, by decide⟩
    · subst hd
      exact ⟨by decide, by decide⟩
  have hshs : findShs (sockChars p.socket_addr ++ (shsChars ++ base64encode p.public_key)) =
      some (sockChars p.socket_addr, base64encode p.public_key) :=
    findShs_append _ _ hsock
  have htake : (base64encode p.public_key).takeWhile (fun c => c ≠ '\n') =
      base64encode p.public_key := by
    rw [List.takeWhile_eq_self_iff]
    intro c hc
    simp [base64encode_no_nl p.public_key hpk c hc]
  rw [display_eq]
  rcases hprot : p.protocol with _ | _
  · rw [protChars, matchAt_ws, hshs, Option.map_some', htake]
  · rw [protChars, matchAt_net, hshs, Option.map_some', htake]

theorem findMatch_eq_matchAt (cs : List Char)
    (r : Protocol × List Char × List Char)
    (h : matchAt cs = some r) : findMatch cs = some r := by
  cases cs with
  | nil => exact h
  | cons c rest => rw [findMatch, h]

/-- Claim C5: the `PeerAddr`/`SsbPeer` string codec.  (1) Parsing the
canonical string of any peer address returns the address (in particular
equality of public keys); (2) `net:10.0.0.1:8008~shs:<b64>` parses
successfully exactly when the base64 payload decodes to 32 bytes; (3) a
string with an `http://` protocol tag fails to parse; (4) `net:x~shs:AA==`
fails to parse (the host is not a socket address). -/
theorem C5_peer_address_codec
    (prot : Protocol) (sa : SockAddrV4) (pk : List Nat)
    (h1 : sa.o1 < 256) (h2 : sa.o2 < 256) (h3 : sa.o3 < 256) (h4 : sa.o4 < 256)
    (hport : sa.port < 65536) (hlen : pk.length = 32)
    (hpk : ∀ b ∈ pk, b < 256) :
    fromStr (display ⟨prot, sa, pk⟩) = some ⟨prot, sa, pk⟩ ∧
      (∀ t : List Char, (∀ c ∈ t, c ≠ '\n') →
        ((fromStr (("net:10.0.0.1:8008~shs:".data) ++ t)).isSome ↔
          ∃ bs, base64decode t = some bs ∧ bs.length = 32)) ∧
      fromStr
        ("http://10.0.0.1:8008~shs:AAAAAAAAAAAAAAAAAAAAAAAAAAAAAAAAAAAAAAAAAAA=".data) =
        none ∧
      fromStr ("net:x~shs:AA==".data) = none := by
  refine ⟨?_, ?_, by decide, by decide⟩
  · have hm : matchAt (display ⟨prot, sa, pk⟩) =
        some (prot, sockChars sa, base64encode pk) :=
      matchAt_display ⟨prot, sa, pk⟩ hpk
    rw [fromStr, findMatch_eq_matchAt _ _ hm, Option.some_bind]
    dsimp only
    rw [parseSocketAddr_sockChars sa h1 h2 h3 h4 hport, Option.some_bind]
    rw [base64decode_base64encode pk hpk, Option.some_bind]
    rw [pkFromSlice, if_pos hlen]
    rfl
  · intro t ht
    have hstr : ("net:10.0.0.1:8008~shs:".data) ++ t =
        netChars ++ (("10.0.0.1:8008".data) ++ (shsChars ++ t)) := rfl
    have hsockchars : ∀ c ∈ ("10.0.0.1:8008".data), c ≠ '~' ∧ c ≠ '\n' := by
      decide
    have hshs := findShs_append ("10.0.0.1:8008".data) t hsockchars
    have htake : t.takeWhile (fun c => c ≠ '\n') = t := by
      rw [List.takeWhile_eq_self_iff]
      intro c hc
      simp [ht c hc]
    have hmatch : matchAt (netChars ++ (("10.0.0.1:8008".data) ++ (shsChars ++ t))) =
        some (Protocol.Net, "10.0.0.1:8008".data, t) := by
      rw [matchAt_net, hshs, Option.map_some', htake]
    rw [hstr, fromStr, findMatch_eq_matchAt _ _ hmatch, Option.some_bind]
    dsimp only
    rw [show parseSocketAddr ("10.0.0.1:8008".data) = some ⟨10, 0, 0, 1, 8008⟩ from
      by decide]
    rw [Option.some_bind]
    cases hdec : base64decode t with
    | none => simp
    | some bs =>
        rw [Option.some_bind, pkFromSlice]
        by_cases hb : bs.length = 32
        · simp [hb]
        · simp [hb]

/-- Witness for C5 at `net:192.168.1.5:8008` with the all-zero public key
(and, inside the conjunction, the base64 token `AA==`). -/
theorem C5_peer_address_codec_witness :
    (192 < 256 ∧ 168 < 256 ∧ 1 < 256 ∧ 5 < 256 ∧ 8008 < 65536 ∧
        (List.replicate 32 0).length = 32 ∧
        (∀ b ∈ List.replicate 32 (0 : Nat), b < 256)) ∧
      (fromStr (display ⟨Protocol.Net, ⟨192, 168, 1, 5, 8008⟩, List.replicate 32 0⟩) =
          some ⟨Protocol.Net, ⟨192, 168, 1, 5, 8008⟩, List.replicate 32 0⟩ ∧
        (∀ t : List Char, (∀ c ∈ t, c ≠ '\n') →
          ((fromStr (("net:10.0.0.1:8008~shs:".data) ++ t)).isSome ↔
            ∃ bs, base64decode t = some bs ∧ bs.length = 32)) ∧
        fromStr
          ("http://10.0.0.1:8008~shs:AAAAAAAAAAAAAAAAAAAAAAAAAAAAAAAAAAAAAAAAAAA=".data) =
          none ∧
        fromStr ("net:x~shs:AA==".data) = none) :=
  ⟨⟨by decide, by decide, by decide, by decide, by decide, by decide, by decide⟩,
    C5_peer_address_codec Protocol.Net ⟨192, 168, 1, 5, 8008⟩ (List.replicate 32 0)
      (by decide) (by decide) (by decide) (by decide) (by decide) (by decide)
      (by decide)⟩

/-! ## Discovery pipeline (`src/discovery.rs`, `src/net.rs`, `src/event.rs`) -/

/-- `PEER_DISCOVERY_PORT` (`discovery.rs` line 17). -/
def PEER_DISCOVERY_PORT : Nat := 45982

/-- `HANDSHAKE_LISTENER_PORT` (`peer_manager.rs` line 15). -/
def HANDSHAKE_LISTENER_PORT : Nat := PEER_DISCOVERY_PORT

/-- The discovery announcer's UDP destination
`255.255.255.255:{PEER_DISCOVERY_PORT}` (`init_announcer`, `discovery.rs`
lines 176-179). -/
def announceTarget : SockAddrV4 := ⟨255, 255, 255, 255, PEER_DISCOVERY_PORT⟩

/-- The `DiscoveryService` listener's bind address
`0.0.0.0:{PEER_DISCOVERY_PORT}` (`discovery.rs` lines 187-188). -/
def discoveryListenerBind : SockAddrV4 := ⟨0, 0, 0, 0, PEER_DISCOVERY_PORT⟩

/-- The `PeerListener` bind address `0.0.0.0:8008` (`net.rs` lines
128-131); this is the listener the event bus uses (`event.rs` line 79). -/
def peerListenerBind : SockAddrV4 := ⟨0, 0, 0, 0, 8008⟩

/-- The announcer's datagram payload: the canonical string of
`PeerAddr { protocol: Net, socket_addr, public_key }` as its UTF-8 bytes
(`init_announcer`, `discovery.rs` lines 162-173; the string is ASCII). -/
def announceDatagram (sa : SockAddrV4) (pk : List Nat) : List Nat :=
  (display ⟨Protocol.Net, sa, pk⟩).map Char.toNat

/-- Model of `std::str::from_utf8`: strict UTF-8 validation (continuation
bytes `80..BF`, no overlong forms, no surrogates, maximum `U+10FFFF`),
decoding to the character list. -/
def utf8Decode : List Nat → Option (List Char)
  | [] => some []
  | b :: rest =>
      if b < 128 then
        (utf8Decode rest).map fun cs => Char.ofNat b :: cs
      else if 194 ≤ b ∧ b ≤ 223 then
        match rest with
        | b2 :: rest2 =>
            if 128 ≤ b2 ∧ b2 ≤ 191 then
              (utf8Decode rest2).map fun cs =>
                Char.ofNat ((b - 192) * 64 + (b2 - 128)) :: cs
            else none
        | [] => none
      else if 224 ≤ b ∧ b ≤ 239 then
        match rest with
        | b2 :: b3 :: rest2 =>
            if (if b = 224 then 160 ≤ b2 ∧ b2 ≤ 191
                else if b = 237 then 128 ≤ b2 ∧ b2 ≤ 159
                else 128 ≤ b2 ∧ b2 ≤ 191) ∧ 128 ≤ b3 ∧ b3 ≤ 191 then
              (utf8Decode rest2).map fun cs =>
                Char.ofNat ((b - 224) * 4096 + (b2 - 128) * 64 + (b3 - 128)) :: cs
            else none
        | _ => none
      else if 240 ≤ b ∧ b ≤ 244 then
        match rest with
        | b2 :: b3 :: b4 :: rest2 =>
            if (if b = 240 then 144 ≤ b2 ∧ b2 ≤ 191
                else if b = 244 then 128 ≤ b2 ∧ b2 ≤ 143
                else 128 ≤ b2 ∧ b2 ≤ 191) ∧
                (128 ≤ b3 ∧ b3 ≤ 191) ∧ 128 ≤ b4 ∧ b4 ≤ 191 then
              (utf8Decode rest2).map fun cs =>
                Char.ofNat ((b - 240) * 262144 + (b2 - 128) * 4096 +
                  (b3 - 128) * 64 + (b4 - 128)) :: cs
            else none
        | _ => none
      else none

/-- Outcome of handling one datagram in `PeerListener::recv` (`net.rs`
lines 135-147); `DiscoveryService::recv` (`discovery.rs` lines 203-214)
shares this body verbatim up to its self-echo check.  `panicked` is the
`from_utf8(..).unwrap()` panic on non-UTF-8 input; `parseErr` is the `Err`
returned through `ok_or(..)??`. -/
inductive ListenerStep
  | panicked
  | parseErr
  | peer (p : PeerAddr)
deriving DecidableEq

/-- Receive one datagram into the fixed 1024-byte buffer, decode it as
UTF-8 (panicking on failure), split on `;`, and parse the first piece. -/
def parseDatagram (d : List Nat) : ListenerStep :=
  match utf8Decode (d.take 1024) with
  | none => .panicked
  | some cs =>
      match fromStr ((splitOnChar ';' cs).headD []) with
      | none => .parseErr
      | some p => .peer p

/-- `Event` (`event.rs` lines 10-15): terminal input, ticks, discovered
peers and peer-manager events (the latter's payload modelled by the peer's
key and the `PeerEvent`). -/
inductive AppEvent
  | Input (key : Nat)
  | Tick
  | NewPeer (p : PeerAddr)
  | PeerManagerEv (peerKey : List Nat) (event : PeerEvent)
deriving DecidableEq

/-- The `_new_peer_handle` loop (`event.rs` lines 77-87) over a finite
sequence of incoming datagrams: `if let Ok(ssb_peer) = peer_listener.recv()`
sends `NewPeer` and loops, an `Err` is silently skipped, and a panic inside
`recv` kills the thread (second component `false`).  There is no self-echo
check anywhere on this path. -/
def newPeerLoop : List (List Nat) → List AppEvent × Bool
  | [] => ([], true)
  | d :: rest =>
      match parseDatagram d with
      | .panicked => ([], false)
      | .parseErr => newPeerLoop rest
      | .peer p =>
          ((AppEvent.NewPeer p) :: (newPeerLoop rest).1, (newPeerLoop rest).2)

/-- Outcome of `DiscoveryService::recv` (`discovery.rs` lines 203-220) over
a finite queue of datagrams: on a parsed peer whose key equals our own it
recurses onto the next datagram; `blocked` models the call still waiting
for a datagram. -/
inductive DiscResult
  | panicked
  | parseErr
  | peer (p : PeerAddr)
  | blocked
deriving DecidableEq

/-- `DiscoveryService::recv`: like `parseDatagram`, but with the self-echo
check `self.public_key == peer.public_key` that retries on the next
datagram. -/
def discoveryServiceRecv (ownPk : List Nat) : List (List Nat) → DiscResult
  | [] => .blocked
  | d :: rest =>
      match parseDatagram d with
      | .panicked => .panicked
      | .parseErr => .parseErr
      | .peer p =>
          if p.public_key = ownPk then discoveryServiceRecv ownPk rest
          else .peer p

/-- The all-zero test key used by the concrete discovery scenarios. -/
def ownPk0 : List Nat := List.replicate 32 0

/-- A node's own announcement datagram for the concrete scenarios:
`net:192.168.1.5:45982~shs:<b64 of ownPk0>`. -/
def selfDatagram0 : List Nat := announceDatagram ⟨192, 168, 1, 5, 45982⟩ ownPk0

/-- Counterexample to claim C6: the announcer's destination port is
`PEER_DISCOVERY_PORT = 45982`, not 8008, while the event bus's discovery
listener (`net.rs` `PeerListener`) binds port 8008 — announcements are not
sent to the port that listener receives on. -/
theorem C6_counterexample :
    PEER_DISCOVERY_PORT = 45982 ∧ announceTarget.port ≠ 8008 ∧
      peerListenerBind.port = 8008 ∧
      announceTarget.port ≠ peerListenerBind.port := by
  decide

/-- Claim C6 amended: the announcer emits to `255.255.255.255:45982`
(`PEER_DISCOVERY_PORT = 45982`); the `DiscoveryService` listener binds
`0.0.0.0:45982`, the same port as the announcer; but the `PeerListener`
used by the event bus binds `0.0.0.0:8008`, which is not the announce
port.  The TCP handshake listener port equals the discovery port. -/
theorem C6_discovery_ports :
    announceTarget = ⟨255, 255, 255, 255, 45982⟩ ∧
      discoveryListenerBind = ⟨0, 0, 0, 0, 45982⟩ ∧
      discoveryListenerBind.port = announceTarget.port ∧
      peerListenerBind = ⟨0, 0, 0, 0, 8008⟩ ∧
      peerListenerBind.port ≠ announceTarget.port ∧
      HANDSHAKE_LISTENER_PORT = PEER_DISCOVERY_PORT := by
  decide

/-- Counterexample to claim C7: a node's own announcement, received by the
`PeerListener`-based event loop, *does* produce a `NewPeer` event carrying
the node's own public key — no self-echo suppression happens on the path
that emits `NewPeer`. -/
theorem C7_counterexample :
    newPeerLoop [selfDatagram0] =
      ([AppEvent.NewPeer ⟨Protocol.Net, ⟨192, 168, 1, 5, 45982⟩, ownPk0⟩], true) := by
  decide

/-- Claim C7 amended: `DiscoveryService::recv` does suppress self-echo —
a parsed datagram whose key equals its own is skipped and the next datagram
is awaited — but the `NewPeer`-emitting listener loop (`event.rs` over
`net.rs`'s `PeerListener::recv`) has no self-check: every parsed datagram,
the node's own announcement included, yields a `NewPeer` event. -/
theorem C7_self_echo (own : List Nat) (d : List Nat) (p : PeerAddr)
    (rest : List (List Nat)) (hd : parseDatagram d = .peer p) :
    (p.public_key = own →
      discoveryServiceRecv own (d :: rest) = discoveryServiceRecv own rest) ∧
      newPeerLoop (d :: rest) =
        ((AppEvent.NewPeer p) :: (newPeerLoop rest).1, (newPeerLoop rest).2) := by
  constructor
  · intro hpk
    rw [discoveryServiceRecv, hd]
    dsimp only
    rw [if_pos hpk]
  · rw [newPeerLoop, hd]

/-- Witness for the amended C7 at the node's own announcement datagram. -/
theorem C7_self_echo_witness :
    parseDatagram selfDatagram0 =
        .peer ⟨Protocol.Net, ⟨192, 168, 1, 5, 45982⟩, ownPk0⟩ ∧
      ((⟨Protocol.Net, ⟨192, 168, 1, 5, 45982⟩, ownPk0⟩ : PeerAddr).public_key =
          ownPk0 →
        discoveryServiceRecv ownPk0 [selfDatagram0] =
          discoveryServiceRecv ownPk0 []) ∧
      newPeerLoop [selfDatagram0] =
        ((AppEvent.NewPeer ⟨Protocol.Net, ⟨192, 168, 1, 5, 45982⟩, ownPk0⟩) ::
            (newPeerLoop []).1, (newPeerLoop []).2) :=
  ⟨by decide,
    (C7_self_echo ownPk0 selfDatagram0 _ [] (by decide)).1,
    (C7_self_echo ownPk0 selfDatagram0 _ [] (by decide)).2⟩

/-- Claim C8, evaluated at the failing input: a non-UTF-8 datagram (the
single byte `0xFF`) panics both receive functions through
`from_utf8(..).unwrap()` and kills the listener loop (the following
well-formed datagram is never processed), whereas a malformed but UTF-8
datagram (`"A"`) is dropped with an `Err` and the loop survives. -/
theorem C8_nonutf8_panics :
    parseDatagram [255] = ListenerStep.panicked ∧
      newPeerLoop [[255], [65]] = ([], false) ∧
      discoveryServiceRecv ownPk0 [[255]] = DiscResult.panicked ∧
      parseDatagram [65] = ListenerStep.parseErr ∧
      newPeerLoop [[65]] = ([], true) := by
  decide
